import Mathlib

/-!
Verification development for the open-modbus-goateway repository.

Go strings are modelled as lists of characters (`Str`), Go slices as
Lean lists, Go maps as association lists whose insertion overwrites the
existing binding for a key, and fallible Go functions as `Except`-valued
Lean functions.  Each definition carries a doc comment naming the Go
function it embeds.
-/

/-- Go `string`, modelled as a list of characters. -/
abbrev Str := List Char

/-- Turns a Lean string literal into the `Str` model. -/
def gs (s : String) : Str := s.data

namespace mqtt

/-- Models `strings.Split(s, sep)` for a one-character separator:
splits `s` into all substrings between occurrences of `sep`;
the empty string splits into one empty field. -/
def splitSep (sep : Char) : Str → List Str
  | [] => [[]]
  | c :: cs =>
    let r := splitSep sep cs
    if c = sep then [] :: r
    else
      match r with
      | [] => [[c]]
      | p :: ps => (c :: p) :: ps

/-- Models `strings.Join(parts, sep)` for a one-character separator. -/
def joinSep (sep : Char) : List Str → Str
  | [] => []
  | [s] => s
  | s :: rest => s ++ sep :: joinSep sep rest

/-- Models the test `strings.HasPrefix(part, "\x7b") && strings.HasSuffix(part, "\x7d")`
used by `ParseTopic` and `Build` to recognize a placeholder segment. -/
def isPlaceholderPart (s : Str) : Bool :=
  s.head? = some '{' && s.getLast? = some '}'

/-- Character class of the cutset `"\x7b\x7d"` of the `strings.Trim` call. -/
def isBrace (c : Char) : Bool := c = '{' || c = '}'

/-- Models `strings.Trim(part, "\x7b\x7d")`: removes all leading and trailing
braces from the segment. -/
def trimCut (s : Str) : Str :=
  ((s.dropWhile isBrace).reverse.dropWhile isBrace).reverse

/-- Models assignment `m[k] = v` into a Go `map[string]string`: the new
binding replaces any existing binding for `k`. -/
def mapInsert (m : List (Str × Str)) (k v : Str) : List (Str × Str) :=
  (k, v) :: m.eraseP (fun p => p.1 == k)

/-- Models reading `m[k]` from a Go `map[string]string`. -/
def mapLookup (m : List (Str × Str)) (k : Str) : Option Str :=
  (m.find? (fun p => p.1 == k)).map (·.2)

/-- Go struct `mqtt.Topic`. -/
structure Topic where
  Format : Str
  Values : List (Str × Str)
deriving DecidableEq, Repr

/-- The per-segment loop of `ParseTopic`: walks the format and topic
segments in lockstep, storing placeholder bindings into the map and
requiring literal segments to match exactly.  The error value models the
`fmt.Errorf("topic %q does not match format %q at part %d", ...)` path;
only its presence, not its text, is observed by the claims. -/
def parseParts : List Str → List Str → List (Str × Str) →
    Except Unit (List (Str × Str))
  | [], _, acc => Except.ok acc
  | f :: fs, t :: ts, acc =>
    if isPlaceholderPart f then parseParts fs ts (mapInsert acc (trimCut f) t)
    else if f = t then parseParts fs ts acc
    else Except.error ()
  | _ :: _, [], _ => Except.error ()

/-- Models `mqtt.ParseTopic(topic, format)`: splits both strings on `/`,
fails if the segment counts differ, then runs the per-segment loop. -/
def ParseTopic (topic format : Str) : Except Unit Topic :=
  if (splitSep '/' topic).length ≠ (splitSep '/' format).length then
    Except.error ()
  else
    match parseParts (splitSep '/' format) (splitSep '/' topic) [] with
    | Except.error e => Except.error e
    | Except.ok values => Except.ok { Format := format, Values := values }

/-- The per-segment loop of `Topic.Build`: replaces each placeholder
segment by its value from the map, failing on a missing binding with
the message of `fmt.Errorf("missing value for placeholder %q", key)`. -/
def buildParts (values : List (Str × Str)) : List Str → Except Str (List Str)
  | [] => Except.ok []
  | f :: fs =>
    if isPlaceholderPart f then
      match mapLookup values (trimCut f) with
      | none =>
        Except.error (gs "missing value for placeholder \"" ++ trimCut f ++ gs "\"")
      | some v => (buildParts values fs).map (v :: ·)
    else (buildParts values fs).map (f :: ·)

/-- Models `(*Topic).Build()`: splits the format on `/`, substitutes
placeholder values, and joins the segments back with `/`. -/
def Build (t : Topic) : Except Str Str :=
  (buildParts t.Values (splitSep '/' t.Format)).map (joinSep '/')

/-- Character class `[a-zA-Z0-9_]` of `placeholderRegex`. -/
def isWordChar (c : Char) : Bool := c.isAlpha || c.isDigit || c = '_'

/-- Attempts to match the tail of a `placeholderRegex` occurrence: given
the input just after a `(` open-brace `)` character, succeeds when one or
more word characters followed by a close brace come next, returning the
remainder of the input after the close brace. -/
def scanPH (l : Str) : Option Str :=
  match l.dropWhile isWordChar with
  | '}' :: tail => if l.takeWhile isWordChar ≠ [] then some tail else none
  | _ => none

/-- Fuel-indexed scan body of the replacement: with fuel at least the
length of the input the fuel never runs out, so the fuel argument is
only a structural-termination device. -/
def replaceAllGo : Nat → Str → Str
  | 0, l => l
  | _ + 1, [] => []
  | fuel + 1, c :: rest =>
    if c = '{' then
      match scanPH rest with
      | some tail => '+' :: replaceAllGo fuel tail
      | none => '{' :: replaceAllGo fuel rest
    else c :: replaceAllGo fuel rest

/-- Models `placeholderRegex.ReplaceAllString(format, "+")` where
`placeholderRegex` is the Go regular expression matching an open brace,
one or more characters of `[a-zA-Z0-9_]`, and a close brace: replaces
each leftmost non-overlapping match by `+`. -/
def replaceAllPH (s : Str) : Str := replaceAllGo s.length s

/-- Models `(*Topic).WithWildcard()`. -/
def WithWildcard (t : Topic) : Str := replaceAllPH t.Format

instance {ε α : Type} [DecidableEq ε] [DecidableEq α] :
    DecidableEq (Except ε α) := fun x y =>
  match x, y with
  | .ok a, .ok b =>
    if h : a = b then .isTrue (by rw [h])
    else .isFalse (by intro hh; cases hh; exact h rfl)
  | .error a, .error b =>
    if h : a = b then .isTrue (by rw [h])
    else .isFalse (by intro hh; cases hh; exact h rfl)
  | .ok _, .error _ => .isFalse (by intro hh; cases hh)
  | .error _, .ok _ => .isFalse (by intro hh; cases hh)

/-- The binding produced by the last format segment that is a placeholder
named `k`, paired with the topic segment at the same position: later
segments take precedence over earlier ones. -/
def lastBind : List Str → List Str → Str → Option Str
  | f :: fs, t :: ts, k =>
    (match lastBind fs ts k with
     | some v => some v
     | none =>
       if isPlaceholderPart f = true ∧ trimCut f = k then some t else none)
  | _, _, _ => none

/-- The placeholder names of a format's segments, in order. -/
def phKeys (fs : List Str) : List Str :=
  fs.filterMap (fun f => if isPlaceholderPart f then some (trimCut f) else none)

/-- A segment consisting of an open brace, a nonempty run of
`[a-zA-Z0-9_]` characters, and a close brace — exactly the whole-segment
matches of `placeholderRegex`. -/
def isWordPH (s : Str) : Bool :=
  match s with
  | [] => false
  | c :: rest =>
    (c == '{') && !(rest.takeWhile isWordChar == []) &&
      (rest.dropWhile isWordChar == ['}'])

end mqtt


namespace handlers

/-- Decimal rendering of a natural number, as `strconv.Itoa` and the
`%d` verb produce for the nonnegative machine integers of this code;
the fuel argument (any value above the digit count) only drives
structural termination. -/
def showNatGo : Nat → Nat → Str → Str
  | 0, _, acc => acc
  | fuel + 1, n, acc =>
    let d := Char.ofNat (48 + n % 10)
    if n < 10 then d :: acc else showNatGo fuel (n / 10) (d :: acc)

/-- Decimal rendering of a natural number. -/
def showNat (n : Nat) : Str := showNatGo (n + 1) n []

/-- Models `strconv.Quote` as used in `strconv.NumError` rendering, for
tokens made of printable characters that need no escaping (every token
the claims mention is of this kind). -/
def goQuote (s : Str) : Str := '"' :: (s ++ ['"'])

/-- The two failure kinds of `strconv` number parsing. -/
inductive NumKind where
  | invalidSyn
  | outOfRange
deriving DecidableEq, Repr

/-- Rendering of a `*strconv.NumError` by the `%v` verb:
`strconv.<Func>: parsing "<token>": <message>`. -/
def numErrStr (fn tok : Str) : NumKind → Str
  | NumKind.invalidSyn =>
    gs "strconv." ++ fn ++ gs ": parsing " ++ goQuote tok ++ gs ": invalid syntax"
  | NumKind.outOfRange =>
    gs "strconv." ++ fn ++ gs ": parsing " ++ goQuote tok ++ gs ": value out of range"

/-- Numeric value of a string of decimal digits. -/
def digitsVal (s : Str) : Nat :=
  s.foldl (fun acc c => acc * 10 + (c.toNat - 48)) 0

/-- Models `strconv.ParseUint(s, 10, bits)`: decimal digits only, no
sign; fails with `invalid syntax` on an empty or non-digit string and
with `value out of range` above `2^bits - 1`. -/
def parseUintE (s : Str) (bits : Nat) : Except NumKind Nat :=
  if s.isEmpty then Except.error NumKind.invalidSyn
  else if !(s.all Char.isDigit) then Except.error NumKind.invalidSyn
  else if digitsVal s ≥ 2 ^ bits then Except.error NumKind.outOfRange
  else Except.ok (digitsVal s)

/-- Models `strconv.Atoi(s)`: optional leading sign, decimal digits,
64-bit signed range. -/
def atoiE (s : Str) : Except NumKind Int :=
  match s with
  | [] => Except.error NumKind.invalidSyn
  | c :: rest =>
    let neg : Bool := c = '-'
    let digits : Str := if c = '-' ∨ c = '+' then rest else s
    if digits.isEmpty then Except.error NumKind.invalidSyn
    else if !(digits.all Char.isDigit) then Except.error NumKind.invalidSyn
    else
      let v : Int := if neg then -(digitsVal digits : Int) else (digitsVal digits : Int)
      if v < -(2 ^ 63) ∨ v > 2 ^ 63 - 1 then Except.error NumKind.outOfRange
      else Except.ok v

/-- Character class of `unicode.IsSpace` over the Latin-1 range (the
payloads of this protocol are ASCII, so the higher Unicode space code
points never occur in a token boundary decision here). -/
def isGoSpace (c : Char) : Bool :=
  c = ' ' || c = '\t' || c = '\n' || c = '\r' ||
    c = '\x0b' || c = '\x0c' || c = '\u0085' || c = '\u00A0'

/-- Models `strings.Fields(payload)`: the maximal runs of non-space
characters, in order. -/
def fields (s : Str) : List Str :=
  (s.splitOnP isGoSpace).filter (fun t => !t.isEmpty)

/-- Go struct `handlers.ModbusRequest`.  The Go machine-integer fields
are modelled as `Nat`; every constructor site stores a value already
bounded by the corresponding `2^width` through the `ParseUint` bit
widths, so no wraparound is possible in `parseRequest`. -/
structure ModbusRequest where
  Cookie : Nat
  IPAddress : Str
  Port : Nat
  Timeout : Nat
  SlaveID : Nat
  FunctionCode : Nat
  RegisterAddress : Nat
  RegisterCount : Nat
  Data : List Nat
deriving DecidableEq, Repr

/-- The error values `parseRequest` can return, one constructor per
`fmt.Errorf` site; the `detail` strings carry the rendered `%v` of the
wrapped `strconv` error (or `<nil>` where the Go code formats a nil
error after a range check). -/
inductive PErr where
  | incomplete
  | badCookie (detail : Str)
  | badPort (detail : Str)
  | badTimeout (detail : Str)
  | badSlaveID (detail : Str)
  | badFunction (detail : Str)
  | badRegister (detail : Str)
  | missingCount (code : Nat)
  | badCount (detail : Str)
  | missingCountData (code : Nat)
  | badData (detail : Str)
  | countMismatch
deriving DecidableEq, Repr

/-- The message text of each `parseRequest` error, exactly as the Go
`fmt.Errorf` format strings produce it. -/
def errMsg : PErr → Str
  | PErr.incomplete => gs "incomplete request payload"
  | PErr.badCookie d => gs "invalid COOKIE value: " ++ d
  | PErr.badPort d => gs "invalid PORT value: " ++ d
  | PErr.badTimeout d => gs "invalid TIMEOUT value: " ++ d
  | PErr.badSlaveID d => gs "invalid SLAVE_ID value: " ++ d
  | PErr.badFunction d => gs "invalid MODBUS_FUNCTION value: " ++ d
  | PErr.badRegister d => gs "invalid REGISTER_NUMBER value: " ++ d
  | PErr.missingCount c => gs "missing REGISTER_COUNT for function " ++ showNat c
  | PErr.badCount d => gs "invalid REGISTER_COUNT value: " ++ d
  | PErr.missingCountData c => gs "missing REGISTER_COUNT or DATA for function " ++ showNat c
  | PErr.badData d => gs "invalid DATA value: " ++ d
  | PErr.countMismatch => gs "mismatch between REGISTER_COUNT and DATA length"

/-- The value-parsing loop of the code-15/16 branch: parses every
comma-separated token as a 16-bit unsigned value, failing at the first
bad token. -/
def parseDataList : List Str → Except PErr (List Nat)
  | [] => Except.ok []
  | v :: vs =>
    match parseUintE v 16 with
    | Except.error k => Except.error (PErr.badData (numErrStr (gs "ParseUint") v k))
    | Except.ok value => (parseDataList vs).map (value :: ·)

/-- The body of `parseRequest` after `strings.Fields`, taken over the
token list; `parseRequest` below composes it with `fields`. -/
def parseReq (parts : List Str) : Except PErr ModbusRequest :=
  if parts.length < 9 then Except.error PErr.incomplete
  else
    match parseUintE (parts.getD 1 []) 64 with
    | Except.error k =>
      Except.error (PErr.badCookie (numErrStr (gs "ParseUint") (parts.getD 1 []) k))
    | Except.ok cookie =>
      match parseUintE (parts.getD 4 []) 16 with
      | Except.error k =>
        Except.error (PErr.badPort (numErrStr (gs "ParseUint") (parts.getD 4 []) k))
      | Except.ok port =>
        if port < 1 ∨ port > 65535 then Except.error (PErr.badPort (gs "<nil>"))
        else
          match atoiE (parts.getD 5 []) with
          | Except.error k =>
            Except.error (PErr.badTimeout (numErrStr (gs "Atoi") (parts.getD 5 []) k))
          | Except.ok timeout =>
            if timeout < 1 ∨ timeout > 999 then Except.error (PErr.badTimeout (gs "<nil>"))
            else
              match parseUintE (parts.getD 6 []) 8 with
              | Except.error k =>
                Except.error (PErr.badSlaveID (numErrStr (gs "ParseUint") (parts.getD 6 []) k))
              | Except.ok slaveID =>
                if slaveID < 1 ∨ slaveID > 255 then Except.error (PErr.badSlaveID (gs "<nil>"))
                else
                  match parseUintE (parts.getD 7 []) 8 with
                  | Except.error k =>
                    Except.error (PErr.badFunction (numErrStr (gs "ParseUint") (parts.getD 7 []) k))
                  | Except.ok functionCode =>
                    match parseUintE (parts.getD 8 []) 16 with
                    | Except.error k =>
                      Except.error (PErr.badRegister (numErrStr (gs "ParseUint") (parts.getD 8 []) k))
                    | Except.ok registerAddress =>
                      if functionCode = 1 ∨ functionCode = 2 ∨ functionCode = 3 ∨ functionCode = 4 then
                        if parts.length < 10 then Except.error (PErr.missingCount functionCode)
                        else
                          match parseUintE (parts.getD 9 []) 16 with
                          | Except.error k =>
                            Except.error (PErr.badCount (numErrStr (gs "ParseUint") (parts.getD 9 []) k))
                          | Except.ok count =>
                            Except.ok {
                              Cookie := cookie, IPAddress := parts.getD 3 [],
                              Port := port, Timeout := timeout.toNat * 1000000000,
                              SlaveID := slaveID, FunctionCode := functionCode,
                              RegisterAddress := registerAddress,
                              RegisterCount := count, Data := [] }
                      else if functionCode = 15 ∨ functionCode = 16 then
                        if parts.length < 11 then Except.error (PErr.missingCountData functionCode)
                        else
                          match parseUintE (parts.getD 9 []) 16 with
                          | Except.error k =>
                            Except.error (PErr.badCount (numErrStr (gs "ParseUint") (parts.getD 9 []) k))
                          | Except.ok count =>
                            match parseDataList (mqtt.splitSep ',' (parts.getD 10 [])) with
                            | Except.error e => Except.error e
                            | Except.ok data =>
                              if data.length ≠ count then Except.error PErr.countMismatch
                              else
                                Except.ok {
                                  Cookie := cookie, IPAddress := parts.getD 3 [],
                                  Port := port, Timeout := timeout.toNat * 1000000000,
                                  SlaveID := slaveID, FunctionCode := functionCode,
                                  RegisterAddress := registerAddress,
                                  RegisterCount := count, Data := data }
                      else
                        Except.ok {
                          Cookie := cookie, IPAddress := parts.getD 3 [],
                          Port := port, Timeout := timeout.toNat * 1000000000,
                          SlaveID := slaveID, FunctionCode := functionCode,
                          RegisterAddress := registerAddress,
                          RegisterCount := 0, Data := [] }

/-- Models `handlers.parseRequest(payload)`. -/
def parseRequest (payload : Str) : Except PErr ModbusRequest :=
  parseReq (fields payload)

/-- The two register tables of `modbus.ReadRegisters`. -/
inductive RegType where
  | holding
  | input
deriving DecidableEq, Repr

/-- The capability surface of the external `simonvetter/modbus` client
used by `executeModbusQuery`: connection creation and opening, and one
operation per Modbus function the handler dispatches to.  `SetUnitId`
mutates only the client's internal state and has no observable effect in
this model. -/
structure ClientOps where
  newClient : Str → Nat → Except Str Unit
  openConn : Except Str Unit
  readCoils : Nat → Nat → Except Str (List Bool)
  readDiscreteInputs : Nat → Nat → Except Str (List Bool)
  readRegisters : Nat → Nat → RegType → Except Str (List Nat)
  writeCoil : Nat → Bool → Except Str Unit
  writeRegister : Nat → Nat → Except Str Unit
  writeCoils : Nat → List Bool → Except Str Unit
  writeRegisters : Nat → List Nat → Except Str Unit

/-- The observable outcome of `executeModbusQuery`: a response list, an
error, or a Go runtime panic (`crash` models the index-out-of-range
panic of an out-of-bounds slice access). -/
inductive ExecOutcome where
  | ok (response : List Str)
  | err (msg : Str)
  | crash
deriving DecidableEq, Repr

/-- The coil-to-number conversion loops of the code-1 and code-2
branches: `true` becomes 1, `false` becomes 0. -/
def boolsToResults (bits : List Bool) : List Nat :=
  bits.map (fun b => if b then 1 else 0)

/-- Models `(*ModbusHandler).executeModbusQuery(req)` over an abstract
client capability; the slice accesses `req.Data[0]` of the code-5 and
code-6 branches are modelled by `List.get?`, whose `none` case is the Go
index-out-of-range panic. -/
def executeModbusQuery (c : ClientOps) (req : ModbusRequest) : ExecOutcome :=
  match c.newClient (gs "tcp://" ++ req.IPAddress ++ gs ":" ++ showNat req.Port) req.Timeout with
  | Except.error e => ExecOutcome.err (gs "failed to create Modbus client: " ++ e)
  | Except.ok _ =>
    match c.openConn with
    | Except.error e => ExecOutcome.err (gs "failed to connect to Modbus server: " ++ e)
    | Except.ok _ =>
      match req.FunctionCode with
      | 1 =>
        match c.readCoils req.RegisterAddress req.RegisterCount with
        | Except.error e => ExecOutcome.err (gs "failed to read coils: " ++ e)
        | Except.ok bits => ExecOutcome.ok ((boolsToResults bits).map showNat)
      | 2 =>
        match c.readDiscreteInputs req.RegisterAddress req.RegisterCount with
        | Except.error e => ExecOutcome.err (gs "failed to read discrete inputs: " ++ e)
        | Except.ok bits => ExecOutcome.ok ((boolsToResults bits).map showNat)
      | 3 =>
        match c.readRegisters req.RegisterAddress req.RegisterCount RegType.holding with
        | Except.error e => ExecOutcome.err (gs "failed to read holding registers: " ++ e)
        | Except.ok results => ExecOutcome.ok (results.map showNat)
      | 4 =>
        match c.readRegisters req.RegisterAddress req.RegisterCount RegType.input with
        | Except.error e => ExecOutcome.err (gs "failed to read input registers: " ++ e)
        | Except.ok results => ExecOutcome.ok (results.map showNat)
      | 5 =>
        match req.Data.get? 0 with
        | none => ExecOutcome.crash
        | some v =>
          match c.writeCoil req.RegisterAddress (v != 0) with
          | Except.error e => ExecOutcome.err (gs "failed to write single coil: " ++ e)
          | Except.ok _ => ExecOutcome.ok []
      | 6 =>
        match req.Data.get? 0 with
        | none => ExecOutcome.crash
        | some v =>
          match c.writeRegister req.RegisterAddress v with
          | Except.error e => ExecOutcome.err (gs "failed to write single register: " ++ e)
          | Except.ok _ => ExecOutcome.ok []
      | 15 =>
        match c.writeCoils req.RegisterAddress (req.Data.map (fun v => v != 0)) with
        | Except.error e => ExecOutcome.err (gs "failed to write multiple coils: " ++ e)
        | Except.ok _ => ExecOutcome.ok []
      | 16 =>
        match c.writeRegisters req.RegisterAddress req.Data with
        | Except.error e => ExecOutcome.err (gs "failed to write multiple registers: " ++ e)
        | Except.ok _ => ExecOutcome.ok []
      | code => ExecOutcome.err (gs "unsupported function code: " ++ showNat code)

/-- The observable outcome of `Handle`: a response string, or a Go
runtime panic propagated out of `executeModbusQuery`. -/
inductive HandleResult where
  | resp (s : Str)
  | crash
deriving DecidableEq, Repr

/-- Models `(*ModbusHandler).Handle(topic, payload)` over the abstract
client capability the handler's Modbus library calls act through. -/
def Handle (c : ClientOps) (topic payload : Str) : HandleResult :=
  match parseRequest payload with
  | Except.error e =>
    HandleResult.resp (showNat 0 ++ gs " ERROR: " ++ errMsg e)
  | Except.ok request =>
    match executeModbusQuery c request with
    | ExecOutcome.err e =>
      HandleResult.resp (showNat request.Cookie ++ gs " ERROR: " ++ e)
    | ExecOutcome.crash => HandleResult.crash
    | ExecOutcome.ok response =>
      if response.length > 0 then
        HandleResult.resp (showNat request.Cookie ++ gs " OK " ++ mqtt.joinSep ' ' response)
      else
        HandleResult.resp (showNat request.Cookie ++ gs " OK")

/-- A client whose every operation succeeds, for exercising the
handler's post-connection paths at concrete inputs. -/
def okClient : ClientOps where
  newClient := fun _ _ => Except.ok ()
  openConn := Except.ok ()
  readCoils := fun _ n => Except.ok (List.replicate n true)
  readDiscreteInputs := fun _ n => Except.ok (List.replicate n false)
  readRegisters := fun _ n _ => Except.ok (List.replicate n 0)
  writeCoil := fun _ _ => Except.ok ()
  writeRegister := fun _ _ => Except.ok ()
  writeCoils := fun _ _ => Except.ok ()
  writeRegisters := fun _ _ => Except.ok ()

/-- Whether `parseRequest` rejects the payload with a PORT error. -/
def rejectedPort (p : Str) : Bool :=
  match parseRequest p with
  | Except.error (PErr.badPort _) => true
  | _ => false

/-- Whether `parseRequest` rejects the payload with a TIMEOUT error. -/
def rejectedTimeout (p : Str) : Bool :=
  match parseRequest p with
  | Except.error (PErr.badTimeout _) => true
  | _ => false

/-- Whether `parseRequest` rejects the payload with a SLAVE_ID error. -/
def rejectedSlaveID (p : Str) : Bool :=
  match parseRequest p with
  | Except.error (PErr.badSlaveID _) => true
  | _ => false

/-- Whether `parseRequest` accepts the payload. -/
def accepted (p : Str) : Bool :=
  match parseRequest p with
  | Except.ok _ => true
  | _ => false

/-- The request `parseRequest` produces for the payload
`CMD 7 ACT host 502 5 1 16 10 2 5,9`. -/
def reqScenario2 : ModbusRequest :=
  { Cookie := 7, IPAddress := gs "host", Port := 502,
    Timeout := 5000000000, SlaveID := 1, FunctionCode := 16,
    RegisterAddress := 10, RegisterCount := 2, Data := [5, 9] }

/-- The request `parseRequest` produces for the write-single-coil
payload `CMD 9 ACT host 502 5 1 5 1`. -/
def reqWriteCoil : ModbusRequest :=
  { Cookie := 9, IPAddress := gs "host", Port := 502,
    Timeout := 5000000000, SlaveID := 1, FunctionCode := 5,
    RegisterAddress := 1, RegisterCount := 0, Data := [] }

/-- The request `parseRequest` produces for the write-single-register
payload `CMD 8 ACT host 502 5 1 6 1`. -/
def reqWriteRegister : ModbusRequest :=
  { Cookie := 8, IPAddress := gs "host", Port := 502,
    Timeout := 5000000000, SlaveID := 1, FunctionCode := 6,
    RegisterAddress := 1, RegisterCount := 0, Data := [] }

end handlers


namespace mqtt

theorem splitSep_ne_nil (sep : Char) (s : Str) : splitSep sep s ≠ [] := by
  cases s with
  | nil => simp [splitSep]
  | cons c cs =>
    simp only [splitSep]
    split
    · simp
    · split <;> simp

theorem joinSep_splitSep (sep : Char) (s : Str) :
    joinSep sep (splitSep sep s) = s := by
  induction s with
  | nil => rfl
  | cons c cs ih =>
    simp only [splitSep]
    split
    · rename_i hc
      subst hc
      cases hr : splitSep c cs with
      | nil => exact absurd hr (splitSep_ne_nil c cs)
      | cons p ps =>
        rw [hr] at ih
        simp only [joinSep]
        rw [ih]
        rfl
    · rename_i hc
      cases hr : splitSep sep cs with
      | nil => exact absurd hr (splitSep_ne_nil sep cs)
      | cons p ps =>
        rw [hr] at ih
        cases ps with
        | nil => simpa only [joinSep] using congrArg (c :: ·) ih
        | cons q qs =>
          simp only [joinSep] at ih ⊢
          rw [List.cons_append, ih]

theorem length_dropWhile_le (p : Char → Bool) (l : Str) :
    (l.dropWhile p).length ≤ l.length := by
  induction l with
  | nil => simp [List.dropWhile]
  | cons c cs ih =>
    simp only [List.dropWhile]
    split
    · exact Nat.le_succ_of_le ih
    · exact Nat.le_refl _

theorem scanPH_length {l tail : Str} (h : scanPH l = some tail) :
    tail.length < l.length := by
  unfold scanPH at h
  split at h
  · rename_i hd
    split at h
    · cases h
      have h1 : ('}' :: tail).length ≤ l.length := by
        rw [← hd]; exact length_dropWhile_le _ _
      simp only [List.length_cons] at h1
      omega
    · simp at h
  · simp at h

theorem replaceAllGo_fuel :
    ∀ fuel₁ fuel₂ l, l.length ≤ fuel₁ → l.length ≤ fuel₂ →
      replaceAllGo fuel₁ l = replaceAllGo fuel₂ l := by
  intro fuel₁
  induction fuel₁ with
  | zero =>
    intro fuel₂ l h1 _
    have : l = [] := List.length_eq_zero.mp (Nat.le_zero.mp h1)
    subst this
    cases fuel₂ <;> rfl
  | succ f ih =>
    intro fuel₂ l h1 h2
    cases l with
    | nil => cases fuel₂ <;> rfl
    | cons c rest =>
      cases fuel₂ with
      | zero => simp at h2
      | succ f₂ =>
        simp only [List.length_cons, Nat.succ_le_succ_iff] at h1 h2
        simp only [replaceAllGo]
        by_cases hc : c = '{'
        · rw [if_pos hc, if_pos hc]
          cases hscan : scanPH rest with
          | some tail =>
            have hlt := scanPH_length hscan
            show '+' :: replaceAllGo f tail = '+' :: replaceAllGo f₂ tail
            exact congrArg ('+' :: ·) (ih f₂ tail
              (Nat.le_of_lt (Nat.lt_of_lt_of_le hlt h1))
              (Nat.le_of_lt (Nat.lt_of_lt_of_le hlt h2)))
          | none =>
            show '{' :: replaceAllGo f rest = '{' :: replaceAllGo f₂ rest
            exact congrArg ('{' :: ·) (ih f₂ rest h1 h2)
        · rw [if_neg hc, if_neg hc, ih f₂ rest h1 h2]

theorem replaceAllPH_nil : replaceAllPH [] = [] := rfl

theorem replaceAllPH_cons_of_ne {c : Char} (rest : Str) (hc : c ≠ '{') :
    replaceAllPH (c :: rest) = c :: replaceAllPH rest := by
  unfold replaceAllPH
  simp only [List.length_cons, replaceAllGo, if_neg hc]

theorem replaceAllPH_cons_match {rest tail : Str}
    (h : scanPH rest = some tail) :
    replaceAllPH ('{' :: rest) = '+' :: replaceAllPH tail := by
  have hstep : replaceAllPH ('{' :: rest) = '+' :: replaceAllGo rest.length tail := by
    unfold replaceAllPH
    simp [replaceAllGo, h]
  rw [hstep, replaceAllGo_fuel rest.length tail.length tail
    (Nat.le_of_lt (scanPH_length h)) (Nat.le_refl _)]
  rfl

theorem replaceAllPH_cons_nomatch {rest : Str} (h : scanPH rest = none) :
    replaceAllPH ('{' :: rest) = '{' :: replaceAllPH rest := by
  unfold replaceAllPH
  simp [replaceAllGo, h]

theorem mapLookup_mapInsert (m : List (Str × Str)) (k v : Str) (k' : Str) :
    mapLookup (mapInsert m k v) k' =
      if k' = k then some v else mapLookup m k' := by
  unfold mapLookup mapInsert
  by_cases hk : k' = k
  · subst hk
    simp [List.find?]
  · simp only [if_neg hk, List.find?]
    have hne : (k == k') = false := by
      simp only [beq_eq_false_iff_ne]
      exact fun hh => hk hh.symm
    simp only [hne]
    induction m with
    | nil => simp [List.eraseP]
    | cons a m ih =>
      simp only [List.eraseP]
      by_cases ha : a.1 == k
      · simp only [ha, cond_true]
        have ha1 : (a.1 == k') = false := by
          simp only [beq_eq_false_iff_ne]
          intro hh
          exact hk (hh.symm.trans (beq_iff_eq.mp ha))
        simp [List.find?, ha1]
      · simp only [Bool.not_eq_true] at ha
        simp only [ha, cond_false, List.find?]
        cases hfa : (a.1 == k') with
        | true => rfl
        | false => exact ih

theorem lastBind_of_tail {fs ts : List Str} {k v : Str} (f t : Str)
    (h : lastBind fs ts k = some v) :
    lastBind (f :: fs) (t :: ts) k = some v := by
  simp [lastBind, h]

theorem lastBind_notin {fs : List Str} {k : Str} (ts : List Str)
    (h : k ∉ phKeys fs) : lastBind fs ts k = none := by
  induction fs generalizing ts with
  | nil => cases ts <;> rfl
  | cons f fs ih =>
    cases ts with
    | nil => rfl
    | cons t ts =>
      have hk : k ∉ phKeys fs := by
        intro hin
        apply h
        unfold phKeys at hin ⊢
        simp only [List.filterMap_cons]
        split <;> simp [hin]
      have hc : ¬(isPlaceholderPart f = true ∧ trimCut f = k) := by
        intro hc
        apply h
        unfold phKeys
        simp only [List.filterMap_cons, if_pos hc.1]
        exact List.mem_cons.mpr (Or.inl hc.2.symm)
      simp only [lastBind, ih ts hk, if_neg hc]

theorem parseParts_forall₂ {fs ts : List Str} {acc m : List (Str × Str)}
    (h : parseParts fs ts acc = Except.ok m) (hlen : fs.length = ts.length) :
    List.Forall₂ (fun f t => isPlaceholderPart f = true ∨ f = t) fs ts := by
  induction fs generalizing ts acc with
  | nil =>
    cases ts with
    | nil => exact List.Forall₂.nil
    | cons t ts => simp at hlen
  | cons f fs ih =>
    cases ts with
    | nil => simp at hlen
    | cons t ts =>
      simp only [List.length_cons, Nat.succ.injEq] at hlen
      unfold parseParts at h
      by_cases hp : isPlaceholderPart f
      · rw [if_pos hp] at h
        exact List.Forall₂.cons (Or.inl hp) (ih h hlen)
      · rw [if_neg hp] at h
        by_cases hft : f = t
        · rw [if_pos hft] at h
          exact List.Forall₂.cons (Or.inr hft) (ih h hlen)
        · rw [if_neg hft] at h
          cases h

theorem parseParts_lookup {fs ts : List Str} {acc m : List (Str × Str)}
    (h : parseParts fs ts acc = Except.ok m) (hlen : fs.length = ts.length)
    (k : Str) :
    mapLookup m k =
      (match lastBind fs ts k with
       | some v => some v
       | none => mapLookup acc k) := by
  induction fs generalizing ts acc with
  | nil =>
    cases ts with
    | nil =>
      unfold parseParts at h
      cases h
      rfl
    | cons t ts => simp at hlen
  | cons f fs ih =>
    cases ts with
    | nil => simp at hlen
    | cons t ts =>
      simp only [List.length_cons, Nat.succ.injEq] at hlen
      unfold parseParts at h
      by_cases hp : isPlaceholderPart f
      · rw [if_pos hp] at h
        have := ih h hlen
        rw [this]
        cases hlb : lastBind fs ts k with
        | some v => simp [lastBind, hlb]
        | none =>
          simp only [lastBind, hlb]
          rw [mapLookup_mapInsert]
          by_cases hk : k = trimCut f
          · rw [if_pos hk, if_pos ⟨hp, hk.symm⟩]
          · rw [if_neg hk, if_neg (fun hc => hk hc.2.symm)]
      · rw [if_neg hp] at h
        by_cases hft : f = t
        · rw [if_pos hft] at h
          have := ih h hlen
          rw [this]
          cases hlb : lastBind fs ts k with
          | some v => simp [lastBind, hlb]
          | none =>
            simp only [lastBind, hlb]
            rw [if_neg (fun hc => hp hc.1)]
        · rw [if_neg hft] at h
          cases h

theorem parseParts_isOk {fs ts : List Str}
    (h : List.Forall₂ (fun f t => isPlaceholderPart f = true ∨ f = t) fs ts) :
    ∀ acc, ∃ m, parseParts fs ts acc = Except.ok m := by
  induction h with
  | nil => exact fun acc => ⟨acc, rfl⟩
  | @cons f t fs ts hft _ ih =>
    intro acc
    unfold parseParts
    by_cases hp : isPlaceholderPart f
    · rw [if_pos hp]
      exact ih _
    · rw [if_neg hp]
      cases hft with
      | inl hl => exact absurd hl hp
      | inr hr =>
        rw [if_pos hr]
        exact ih _

theorem lastBind_nodup {fs ts : List Str}
    (hlen : fs.length = ts.length) (hnd : (phKeys fs).Nodup) :
    List.Forall₂
      (fun f t => isPlaceholderPart f = true →
        lastBind fs ts (trimCut f) = some t) fs ts := by
  induction fs generalizing ts with
  | nil =>
    cases ts with
    | nil => exact List.Forall₂.nil
    | cons t ts => simp at hlen
  | cons f fs ih =>
    cases ts with
    | nil => simp at hlen
    | cons t ts =>
      simp only [List.length_cons, Nat.succ.injEq] at hlen
      have hnd' : (phKeys fs).Nodup := by
        unfold phKeys at hnd
        simp only [List.filterMap_cons] at hnd
        split at hnd
        · exact hnd
        · exact hnd.of_cons
      refine List.Forall₂.cons ?_ ?_
      · intro hp
        have hkey : trimCut f ∉ phKeys fs := by
          unfold phKeys at hnd
          simp only [List.filterMap_cons, if_pos hp] at hnd
          exact (List.nodup_cons.mp hnd).1
        rw [lastBind, lastBind_notin ts hkey, if_pos ⟨hp, rfl⟩]
      · exact (ih hlen hnd').imp
          (fun {f' t'} hft hp => lastBind_of_tail f t (hft hp))

theorem buildParts_ok {m : List (Str × Str)} {fs ts : List Str}
    (h : List.Forall₂
      (fun f t =>
        (isPlaceholderPart f = true ∧ mapLookup m (trimCut f) = some t) ∨
        (isPlaceholderPart f = false ∧ f = t)) fs ts) :
    buildParts m fs = Except.ok ts := by
  induction h with
  | nil => rfl
  | @cons f t fs ts hft _ ih =>
    unfold buildParts
    cases hft with
    | inl hl =>
      rw [if_pos hl.1, hl.2, ih]
      rfl
    | inr hr =>
      rw [if_neg (by rw [hr.1]; exact fun h => nomatch h), ih, hr.2]
      rfl

theorem isPlaceholderPart_eq_false_of_no_brace {s : Str} (h : '{' ∉ s) :
    isPlaceholderPart s = false := by
  cases s with
  | nil => rfl
  | cons c cs =>
    have hc : c ≠ '{' := fun hh => h (hh ▸ List.mem_cons_self c cs)
    unfold isPlaceholderPart
    simp [List.head?, hc]

theorem dropWhile_word_append (name r : Str) (hw : ∀ c ∈ name, isWordChar c) :
    (name ++ '}' :: r).dropWhile isWordChar = '}' :: r := by
  induction name with
  | nil => simp [List.dropWhile, isWordChar, Char.isAlpha, Char.isDigit, Char.isUpper, Char.isLower]
  | cons a as ih =>
    have ha : isWordChar a := hw a (List.mem_cons_self a as)
    simp only [List.cons_append, List.dropWhile, ha]
    exact ih (fun c hc => hw c (List.mem_cons_of_mem a hc))

theorem takeWhile_word_append (name r : Str) (hw : ∀ c ∈ name, isWordChar c) :
    (name ++ '}' :: r).takeWhile isWordChar = name := by
  induction name with
  | nil => simp [List.takeWhile, isWordChar, Char.isAlpha, Char.isDigit, Char.isUpper, Char.isLower]
  | cons a as ih =>
    have ha : isWordChar a := hw a (List.mem_cons_self a as)
    simp only [List.cons_append, List.takeWhile, ha]
    exact congrArg (a :: ·) (ih (fun c hc => hw c (List.mem_cons_of_mem a hc)))

theorem replaceAllPH_append_of_no_brace (s r : Str) (h : '{' ∉ s) :
    replaceAllPH (s ++ r) = s ++ replaceAllPH r := by
  induction s with
  | nil => rfl
  | cons c cs ih =>
    have hc : c ≠ '{' := fun hh => h (hh ▸ List.mem_cons_self c cs)
    rw [List.cons_append, replaceAllPH_cons_of_ne _ hc,
      ih (fun hm => h (List.mem_cons_of_mem c hm))]
    rfl

theorem replaceAllPH_placeholder (name r : Str) (hne : name ≠ [])
    (hw : ∀ c ∈ name, isWordChar c) :
    replaceAllPH ('{' :: (name ++ '}' :: r)) = '+' :: replaceAllPH r := by
  have hscan : scanPH (name ++ '}' :: r) = some r := by
    unfold scanPH
    rw [dropWhile_word_append name r hw, takeWhile_word_append name r hw]
    simp [hne]
  exact replaceAllPH_cons_match hscan

theorem isWordPH_shape {s : Str} (h : isWordPH s = true) :
    ∃ name, s = '{' :: (name ++ ['}']) ∧ name ≠ [] ∧ ∀ c ∈ name, isWordChar c := by
  cases s with
  | nil => simp [isWordPH] at h
  | cons c rest =>
    simp only [isWordPH, Bool.and_eq_true, beq_iff_eq, Bool.not_eq_true',
      beq_eq_false_iff_ne, ne_eq] at h
    obtain ⟨⟨hc, hne⟩, hdrop⟩ := h
    subst hc
    refine ⟨rest.takeWhile isWordChar, ?_, hne, fun c hc => List.mem_takeWhile_imp hc⟩
    have hsplit : rest.takeWhile isWordChar ++ rest.dropWhile isWordChar = rest :=
      List.takeWhile_append_dropWhile isWordChar rest
    rw [hdrop] at hsplit
    rw [hsplit]

theorem isPlaceholderPart_of_isWordPH {s : Str} (h : isWordPH s = true) :
    isPlaceholderPart s = true := by
  obtain ⟨name, hshape, _, _⟩ := isWordPH_shape h
  subst hshape
  unfold isPlaceholderPart
  have hlast : ('{' :: (name ++ ['}'])).getLast? = some '}' := by
    rw [List.getLast?_eq_getLast _ (by simp), List.getLast_cons (by simp)]
    simp [List.getLast_append]
  simp [hlast]

theorem replaceAllPH_joinSep (segs : List Str)
    (h : ∀ s ∈ segs, isWordPH s = true ∨ '{' ∉ s) :
    replaceAllPH (joinSep '/' segs) =
      joinSep '/' (segs.map (fun s => if isPlaceholderPart s then gs "+" else s)) := by
  induction segs with
  | nil => rfl
  | cons s rest ih =>
    have hs := h s (List.mem_cons_self s rest)
    have hrest := fun x hx => h x (List.mem_cons_of_mem s hx)
    cases rest with
    | nil =>
      have hsingle : joinSep '/' [s] = s := rfl
      have hmap : (List.map (fun x => if isPlaceholderPart x then gs "+" else x) [s]) =
          [if isPlaceholderPart s then gs "+" else s] := rfl
      rw [hsingle, hmap]
      cases hs with
      | inl hph =>
        obtain ⟨name, hshape, hne, hw⟩ := isWordPH_shape hph
        have hPH := isPlaceholderPart_of_isWordPH hph
        rw [if_pos hPH, hshape]
        have hform : ('{' :: (name ++ ['}']) : Str) = '{' :: (name ++ '}' :: []) := rfl
        rw [hform, replaceAllPH_placeholder name [] hne hw, replaceAllPH_nil]
        rfl
      | inr hlit =>
        have hPH := isPlaceholderPart_eq_false_of_no_brace hlit
        have hns : ¬ (isPlaceholderPart s = true) := by simp [hPH]
        rw [if_neg hns]
        have happ : replaceAllPH (s ++ []) = s ++ replaceAllPH [] :=
          replaceAllPH_append_of_no_brace s [] hlit
        rw [List.append_nil, replaceAllPH_nil, List.append_nil] at happ
        exact happ.trans rfl
    | cons s2 rest2 =>
      have hjoin : joinSep '/' (s :: s2 :: rest2) = s ++ '/' :: joinSep '/' (s2 :: rest2) := rfl
      have hslash : replaceAllPH ('/' :: joinSep '/' (s2 :: rest2)) =
          '/' :: replaceAllPH (joinSep '/' (s2 :: rest2)) := by
        have h1 := replaceAllPH_append_of_no_brace ['/'] (joinSep '/' (s2 :: rest2)) (by decide)
        simpa using h1
      have hjoin2 : ∀ z : Str,
          joinSep '/' (z :: (List.map (fun x => if isPlaceholderPart x then gs "+" else x) (s2 :: rest2))) =
            z ++ '/' :: joinSep '/' (List.map (fun x => if isPlaceholderPart x then gs "+" else x) (s2 :: rest2)) :=
        fun z => rfl
      rw [hjoin]
      cases hs with
      | inl hph =>
        obtain ⟨name, hshape, hne, hw⟩ := isWordPH_shape hph
        have hPH := isPlaceholderPart_of_isWordPH hph
        rw [hshape]
        have hassoc : ('{' :: (name ++ ['}'])) ++ '/' :: joinSep '/' (s2 :: rest2) =
            '{' :: (name ++ '}' :: ('/' :: joinSep '/' (s2 :: rest2))) := by
          simp
        have hPH2 : isPlaceholderPart ('{' :: (name ++ ['}'])) = true := hshape ▸ hPH
        rw [hassoc, replaceAllPH_placeholder name _ hne hw, hslash, ih hrest]
        conv_rhs => rw [List.map_cons]
        rw [if_pos hPH2]
        rfl
      | inr hlit =>
        have hPH := isPlaceholderPart_eq_false_of_no_brace hlit
        have hns : ¬ (isPlaceholderPart s = true) := by simp [hPH]
        rw [replaceAllPH_append_of_no_brace s _ hlit, hslash, ih hrest]
        conv_rhs => rw [List.map_cons]
        rw [if_neg hns]
        rfl

theorem forall₂_and {α β : Type} {P Q : α → β → Prop} {l1 : List α} {l2 : List β}
    (h1 : List.Forall₂ P l1 l2) (h2 : List.Forall₂ Q l1 l2) :
    List.Forall₂ (fun a b => P a b ∧ Q a b) l1 l2 := by
  induction h1 with
  | nil => exact List.Forall₂.nil
  | @cons a b l1 l2 hab _ ih =>
    cases h2 with
    | cons hab2 htail2 => exact List.Forall₂.cons ⟨hab, hab2⟩ (ih htail2)

/-- C4 (counterexample): for the format `\x7bx\x7d/\x7bx\x7d` and the address
`a/b`, `ParseTopic` succeeds, but `Build` on the resulting topic returns
`b/b`, not the original address `a/b`, so the unconditional parse/build
round-trip claim is false. -/
theorem C4_roundtrip_cex :
    ParseTopic (gs "a/b") (gs "{x}/{x}") =
      Except.ok { Format := gs "{x}/{x}", Values := [(gs "x", gs "b")] } ∧
    Build { Format := gs "{x}/{x}", Values := [(gs "x", gs "b")] } =
      Except.ok (gs "b/b") ∧
    gs "b/b" ≠ gs "a/b" :=
  ⟨rfl, rfl, by decide⟩

/-- C4 (amended): the parse/build round-trip holds for every format whose
placeholder segments carry pairwise-distinct names: if `ParseTopic A F`
succeeds with topic `t`, then `Build t` succeeds and returns exactly `A`. -/
theorem C4_parse_build_roundtrip (F A : Str) (t : Topic)
    (hnd : (phKeys (splitSep '/' F)).Nodup)
    (h : ParseTopic A F = Except.ok t) :
    Build t = Except.ok A := by
  unfold ParseTopic at h
  split at h
  · cases h
  · rename_i hlen
    have hlen' : (splitSep '/' F).length = (splitSep '/' A).length :=
      (not_ne_iff.mp hlen).symm
    cases hpp : parseParts (splitSep '/' F) (splitSep '/' A) [] with
    | error e => rw [hpp] at h; cases h
    | ok m =>
      rw [hpp] at h
      cases h
      unfold Build
      have hf2 := parseParts_forall₂ hpp hlen'
      have hnod := lastBind_nodup hlen' hnd
      have hcomb := forall₂_and hf2 hnod
      have hbuild : List.Forall₂ (fun f t =>
          (isPlaceholderPart f = true ∧ mapLookup m (trimCut f) = some t) ∨
          (isPlaceholderPart f = false ∧ f = t))
          (splitSep '/' F) (splitSep '/' A) := by
        refine hcomb.imp ?_
        rintro f t ⟨h1, h2⟩
        by_cases hp : isPlaceholderPart f
        · left
          refine ⟨hp, ?_⟩
          have hlook := parseParts_lookup hpp hlen' (trimCut f)
          rw [h2 hp] at hlook
          simpa using hlook
        · right
          refine ⟨by simpa using hp, ?_⟩
          cases h1 with
          | inl hph => exact absurd hph hp
          | inr heq => exact heq
      rw [buildParts_ok hbuild]
      simp [Except.map, joinSep_splitSep]

/-- C4 (witness): the round-trip for the format `modbus/\x7bdevice\x7d/request`
and the address `modbus/dev1/request`. -/
theorem C4_roundtrip_witness :
    Build { Format := gs "modbus/{device}/request",
            Values := [(gs "device", gs "dev1")] } =
      Except.ok (gs "modbus/dev1/request") :=
  C4_parse_build_roundtrip (gs "modbus/{device}/request")
    (gs "modbus/dev1/request")
    { Format := gs "modbus/{device}/request",
      Values := [(gs "device", gs "dev1")] }
    (by decide) rfl

/-- C5 (counterexample): the segment `\x7ba-b\x7d` is a placeholder segment
for the parsing side (it starts with an open brace and ends with a close
brace) yet `WithWildcard` leaves it unreplaced, and the literal segment
`a\x7bx\x7db` is altered by `WithWildcard`; both parts of the claim fail. -/
theorem C5_wildcard_cex :
    isPlaceholderPart (gs "{a-b}") = true ∧
    splitSep '/' (gs "modbus/{a-b}/request") =
      [gs "modbus", gs "{a-b}", gs "request"] ∧
    WithWildcard { Format := gs "modbus/{a-b}/request", Values := [] } =
      gs "modbus/{a-b}/request" ∧
    isPlaceholderPart (gs "a{x}b") = false ∧
    WithWildcard { Format := gs "a{x}b/c", Values := [] } = gs "a+b/c" :=
  ⟨rfl, rfl, rfl, rfl, rfl⟩

/-- C5 (amended): for every format in which each `/`-separated segment is
either a placeholder of the form open brace, nonempty `[a-zA-Z0-9_]` name,
close brace, or a literal containing no open brace, `WithWildcard` replaces
exactly the placeholder segments with `+` and preserves every literal
segment byte-for-byte. -/
theorem C5_wildcard_segments (F : Str) (v : List (Str × Str))
    (h : ∀ s ∈ splitSep '/' F, isWordPH s = true ∨ '{' ∉ s) :
    WithWildcard { Format := F, Values := v } =
      joinSep '/' ((splitSep '/' F).map
        (fun s => if isPlaceholderPart s then gs "+" else s)) := by
  have h1 := replaceAllPH_joinSep (splitSep '/' F) h
  rw [joinSep_splitSep] at h1
  exact h1

/-- C5 (witness): the amended statement at the format
`modbus/\x7bdevice\x7d/\x7baction\x7d`. -/
theorem C5_wildcard_witness :
    WithWildcard { Format := gs "modbus/{device}/{action}", Values := [] } =
      joinSep '/' ((splitSep '/' (gs "modbus/{device}/{action}")).map
        (fun s => if isPlaceholderPart s then gs "+" else s)) :=
  C5_wildcard_segments (gs "modbus/{device}/{action}") [] (by decide)

/-- C9: when a format repeats a placeholder name, `ParseTopic` still
succeeds on any address with matching segment count and matching literal
segments, and the returned map binds each name to the value captured from
the last segment bearing it, discarding earlier captures. -/
theorem C9_duplicate_placeholder_last_wins (A F : Str)
    (h : List.Forall₂ (fun f t => isPlaceholderPart f = true ∨ f = t)
      (splitSep '/' F) (splitSep '/' A)) :
    ∃ t, ParseTopic A F = Except.ok t ∧
      ∀ k, mapLookup t.Values k =
        lastBind (splitSep '/' F) (splitSep '/' A) k := by
  have hlen := h.length_eq
  obtain ⟨m, hm⟩ := parseParts_isOk h []
  refine ⟨{ Format := F, Values := m }, ?_, ?_⟩
  · unfold ParseTopic
    rw [if_neg (not_ne_iff.mpr hlen.symm), hm]
  · intro k
    have hl := parseParts_lookup hm hlen k
    rw [hl]
    cases lastBind (splitSep '/' F) (splitSep '/' A) k with
    | some v => rfl
    | none => rfl

/-- C9 (witness): the duplicate-name format `\x7bx\x7d/\x7bx\x7d` against the
address `a/b`. -/
theorem C9_duplicate_witness :
    ∃ t, ParseTopic (gs "a/b") (gs "{x}/{x}") = Except.ok t ∧
      ∀ k, mapLookup t.Values k =
        lastBind (splitSep '/' (gs "{x}/{x}")) (splitSep '/' (gs "a/b")) k :=
  C9_duplicate_placeholder_last_wins (gs "a/b") (gs "{x}/{x}")
    (List.Forall₂.cons (Or.inl rfl)
      (List.Forall₂.cons (Or.inl rfl) List.Forall₂.nil))

/-- C10: `ParseTopic` and `Build` recognize the segment `\x7ba-b\x7d` as a
placeholder named `a-b` (whole segment delimited by braces, name obtained
by trimming braces), while `WithWildcard`, which replaces only matches of
the word-character regular expression, leaves that same segment unreplaced
braces and all. -/
theorem C10_recognizer_mismatch :
    ParseTopic (gs "x/v") (gs "x/{a-b}") =
      Except.ok { Format := gs "x/{a-b}", Values := [(gs "a-b", gs "v")] } ∧
    Build { Format := gs "x/{a-b}", Values := [(gs "a-b", gs "v")] } =
      Except.ok (gs "x/v") ∧
    isPlaceholderPart (gs "{a-b}") = true ∧
    trimCut (gs "{a-b}") = gs "a-b" ∧
    WithWildcard { Format := gs "x/{a-b}", Values := [] } = gs "x/{a-b}" :=
  ⟨rfl, rfl, rfl, rfl, rfl⟩

end mqtt


namespace handlers

/-- C1 (counterexample): parsing `CMD 7 ACT host 502 5 1 16 10 2 5,9`
stores register address 10, the token value itself, not the claimed
one-based-to-zero-based conversion result 9. -/
theorem C1_register_offset_cex :
    (parseRequest (gs "CMD 7 ACT host 502 5 1 16 10 2 5,9")).map
      (fun r => r.RegisterAddress) = Except.ok 10 ∧
    (parseRequest (gs "CMD 7 ACT host 502 5 1 16 10 2 5,9")).map
      (fun r => r.RegisterAddress) ≠ Except.ok 9 :=
  ⟨rfl, by decide⟩

/-- C1 (amended): for every payload `parseRequest` accepts, the stored
register address equals the register-number token (token 8) parsed as a
16-bit unsigned integer, unchanged — no 1 is subtracted; in particular
the payload above yields register address 10. -/
theorem C1_register_number_stored_unchanged (payload : Str)
    (req : ModbusRequest) (h : parseRequest payload = Except.ok req) :
    parseUintE ((fields payload).getD 8 []) 16 =
      Except.ok req.RegisterAddress := by
  unfold parseRequest parseReq at h
  repeat' split at h
  all_goals cases h
  all_goals assumption

/-- C1 (witness): the amended statement at the scenario payload. -/
theorem C1_register_number_witness :
    parseUintE ((fields (gs "CMD 7 ACT host 502 5 1 16 10 2 5,9")).getD 8 []) 16 =
      Except.ok reqScenario2.RegisterAddress :=
  C1_register_number_stored_unchanged
    (gs "CMD 7 ACT host 502 5 1 16 10 2 5,9") reqScenario2 rfl

/-- C2 (counterexample): the payload `CMD 3 ACT host 502 5 1 16 1 2 5`
carries the parsable cookie 3, yet `Handle` answers its count-mismatch
failure with cookie 0, not with the echoed cookie 3. -/
theorem C2_cookie_echo_cex :
    Handle okClient (gs "modbus/dev1/request")
      (gs "CMD 3 ACT host 502 5 1 16 1 2 5") =
      HandleResult.resp
        (gs "0 ERROR: mismatch between REGISTER_COUNT and DATA length") ∧
    Handle okClient (gs "modbus/dev1/request")
      (gs "CMD 3 ACT host 502 5 1 16 1 2 5") ≠
      HandleResult.resp
        (gs "3 ERROR: mismatch between REGISTER_COUNT and DATA length") :=
  ⟨rfl, by decide⟩

/-- C2 (amended): every `parseRequest` failure — including every
validation failure after the cookie token parsed successfully — makes
`Handle` respond with cookie 0; the parsed cookie is echoed only in the
responses produced after a fully successful parse. -/
theorem C2_parse_failure_cookie_zero (c : ClientOps) (topic payload : Str)
    (e : PErr) (h : parseRequest payload = Except.error e) :
    Handle c topic payload =
      HandleResult.resp (gs "0 ERROR: " ++ errMsg e) := by
  unfold Handle
  rw [h]
  rfl

/-- C2 (witness): the amended statement at the scenario-4 payload. -/
theorem C2_cookie_zero_witness :
    Handle okClient (gs "modbus/dev1/request")
      (gs "CMD 3 ACT host 502 5 1 16 1 2 5") =
      HandleResult.resp (gs "0 ERROR: " ++ errMsg PErr.countMismatch) :=
  C2_parse_failure_cookie_zero okClient (gs "modbus/dev1/request")
    (gs "CMD 3 ACT host 502 5 1 16 1 2 5") PErr.countMismatch rfl

/-- C3: for operation codes 5 and 6 `parseRequest` leaves the request's
`Data` empty, so the `req.Data[0]` accesses of `executeModbusQuery` are
out of bounds and the handler panics on every parsed write-single
request, contradicting the claim that index 0 is populated before
backend execution. -/
theorem C3_write_single_data_empty_crash :
    parseRequest (gs "CMD 9 ACT host 502 5 1 5 1") = Except.ok reqWriteCoil ∧
    reqWriteCoil.Data = [] ∧
    executeModbusQuery okClient reqWriteCoil = ExecOutcome.crash ∧
    parseRequest (gs "CMD 8 ACT host 502 5 1 6 1") = Except.ok reqWriteRegister ∧
    reqWriteRegister.Data = [] ∧
    executeModbusQuery okClient reqWriteRegister = ExecOutcome.crash ∧
    Handle okClient (gs "modbus/dev1/request") (gs "CMD 9 ACT host 502 5 1 5 1") =
      HandleResult.crash :=
  ⟨rfl, rfl, rfl, rfl, rfl, rfl, rfl⟩

/-- C6: with all other tokens valid, `parseRequest` rejects port 0 and
65536 and accepts port 1 and 65535; rejects timeout 0 and 1000 and
accepts timeout 1 and 999; rejects unit id 0 and 256 and accepts unit
id 1 and 255. -/
theorem C6_boundary_validation :
    rejectedPort (gs "CMD 1 ACT host 0 5 1 3 1 1") = true ∧
    rejectedPort (gs "CMD 1 ACT host 65536 5 1 3 1 1") = true ∧
    accepted (gs "CMD 1 ACT host 1 5 1 3 1 1") = true ∧
    accepted (gs "CMD 1 ACT host 65535 5 1 3 1 1") = true ∧
    rejectedTimeout (gs "CMD 1 ACT host 502 0 1 3 1 1") = true ∧
    rejectedTimeout (gs "CMD 1 ACT host 502 1000 1 3 1 1") = true ∧
    accepted (gs "CMD 1 ACT host 502 1 1 3 1 1") = true ∧
    accepted (gs "CMD 1 ACT host 502 999 1 3 1 1") = true ∧
    rejectedSlaveID (gs "CMD 1 ACT host 502 5 0 3 1 1") = true ∧
    rejectedSlaveID (gs "CMD 1 ACT host 502 5 256 3 1 1") = true ∧
    accepted (gs "CMD 1 ACT host 502 5 1 3 1 1") = true ∧
    accepted (gs "CMD 1 ACT host 502 5 255 3 1 1") = true :=
  ⟨rfl, rfl, rfl, rfl, rfl, rfl, rfl, rfl, rfl, rfl, rfl, rfl⟩

/-- C7: for operation codes 15 and 16, whenever all earlier tokens
validate, the count token parses, and every comma-separated value token
parses but the value-list length differs from the declared count,
`parseRequest` fails with the count-mismatch error and returns no
request value. -/
theorem C7_count_mismatch (payload : Str)
    (cookie port slaveID fc registerAddress count : Nat) (timeout : Int)
    (data : List Nat)
    (h9 : ¬ (fields payload).length < 9)
    (hck : parseUintE ((fields payload).getD 1 []) 64 = Except.ok cookie)
    (hpt : parseUintE ((fields payload).getD 4 []) 16 = Except.ok port)
    (hptr : ¬ (port < 1 ∨ port > 65535))
    (htm : atoiE ((fields payload).getD 5 []) = Except.ok timeout)
    (htmr : ¬ (timeout < 1 ∨ timeout > 999))
    (hsl : parseUintE ((fields payload).getD 6 []) 8 = Except.ok slaveID)
    (hslr : ¬ (slaveID < 1 ∨ slaveID > 255))
    (hfc : parseUintE ((fields payload).getD 7 []) 8 = Except.ok fc)
    (hfc1516 : fc = 15 ∨ fc = 16)
    (hreg : parseUintE ((fields payload).getD 8 []) 16 = Except.ok registerAddress)
    (h11 : ¬ (fields payload).length < 11)
    (hcnt : parseUintE ((fields payload).getD 9 []) 16 = Except.ok count)
    (hdata : parseDataList (mqtt.splitSep ',' ((fields payload).getD 10 [])) =
      Except.ok data)
    (hmis : data.length ≠ count) :
    parseRequest payload = Except.error PErr.countMismatch := by
  unfold parseRequest parseReq
  cases hfc1516 with
  | inl h15 =>
    subst h15
    simp only [if_neg h9, hck, hpt, if_neg hptr, htm, if_neg htmr, hsl,
      if_neg hslr, hfc, hreg,
      if_neg (by decide : ¬((15 : Nat) = 1 ∨ (15 : Nat) = 2 ∨ (15 : Nat) = 3 ∨ (15 : Nat) = 4)),
      if_pos (Or.inl rfl : (15 : Nat) = 15 ∨ (15 : Nat) = 16),
      if_neg h11, hcnt, hdata, if_pos hmis]
    simp
  | inr h16 =>
    subst h16
    simp only [if_neg h9, hck, hpt, if_neg hptr, htm, if_neg htmr, hsl,
      if_neg hslr, hfc, hreg,
      if_neg (by decide : ¬((16 : Nat) = 1 ∨ (16 : Nat) = 2 ∨ (16 : Nat) = 3 ∨ (16 : Nat) = 4)),
      if_pos (Or.inr rfl : (16 : Nat) = 15 ∨ (16 : Nat) = 16),
      if_neg h11, hcnt, hdata, if_pos hmis]
    simp

/-- C7 (witness): the count-mismatch payload of scenario 4, count 2
against a single value. -/
theorem C7_count_mismatch_witness :
    parseRequest (gs "CMD 3 ACT host 502 5 1 16 1 2 5") =
      Except.error PErr.countMismatch :=
  C7_count_mismatch (gs "CMD 3 ACT host 502 5 1 16 1 2 5")
    3 502 1 16 1 2 5 [5]
    (by decide) rfl rfl (by decide) rfl (by decide) rfl (by decide) rfl
    (Or.inr rfl) rfl (by decide) rfl rfl (by decide)

/-- C8: for every payload with fewer than 9 whitespace-delimited tokens,
`Handle` returns exactly `0 ERROR: incomplete request payload`. -/
theorem C8_incomplete_payload (c : ClientOps) (topic payload : Str)
    (h : (fields payload).length < 9) :
    Handle c topic payload =
      HandleResult.resp (gs "0 ERROR: incomplete request payload") := by
  unfold Handle parseRequest parseReq
  rw [if_pos h]
  rfl

/-- C8 (witness): the two-token payload `CMD 42`. -/
theorem C8_incomplete_witness :
    Handle okClient (gs "modbus/dev1/request") (gs "CMD 42") =
      HandleResult.resp (gs "0 ERROR: incomplete request payload") :=
  C8_incomplete_payload okClient (gs "modbus/dev1/request") (gs "CMD 42")
    (by decide)

end handlers
